import Mathlib

/-!
Verification of the guv pyuv_cffi Hub (src/guv/hubs/pyuv_cffi.py) and the
eventlet server harness (src/eventlet/server.py), as a shallow embedding.

Native libuv handles are modelled as small records; handle operations that
pyuv refuses on a closed handle are modelled in `Except`, so that "raises"
is an explicit `.error` value.  Exceptions raised by user callbacks are
modelled by a boolean `raises` flag on the callback's behaviour; the Hub's
`_squelch_exception` (defined in guv/hubs/abc.py, which is not part of the
two source files) is modelled from the spec as "log and suppress": it emits
a squelch event and returns normally.
-/

namespace Guv

/-- Error values for operations on native handles, standing for the Python
exceptions those operations raise.  All of them are `Exception` subclasses
in Python (`HandleClosedError`, `AttributeError`, `KeyError`). -/
inductive HErr where
  | closedHandle
  | noHandle
  | notRegistered
deriving DecidableEq, Repr

/-- Every modelled handle error stands for a Python `Exception` subclass
(none of them is a bare `BaseException`), so `except Exception` catches it. -/
def HErr.isException : HErr → Bool
  | _ => true

/-! ## Native one-shot timer handles (pyuv_cffi.Timer) -/

/-- State of a native uv timer handle: whether it is currently started and
whether it has been closed. -/
structure THandle where
  active : Bool
  closed : Bool
deriving DecidableEq, Repr

/-- `timer_handle.stop()`: invalid on a closed handle. -/
def THandle.stopT (h : THandle) : Except HErr THandle :=
  if h.closed then .error .closedHandle else .ok { h with active := false }

/-- `timer_handle.close()`: invalid on a closed handle; afterwards the
handle is closed and no longer active. -/
def THandle.closeT (h : THandle) : Except HErr THandle :=
  if h.closed then .error .closedHandle
  else .ok { active := false, closed := true }

/-- Trace events of the wrapped timer callback. -/
inductive TEv where
  | invoke   -- `cb(*args, **kwargs)` was invoked
  | squelch  -- `self._squelch_exception(sys.exc_info())` ran
  | stop     -- `timer_h.stop()`
  | close    -- `timer_h.close()`
deriving DecidableEq, Repr

/-- `Timer.cancel` (pyuv_cffi.py lines 40-43):
`if not self.timer_handle.closed: stop(); close()`. -/
def Timer.cancel (h : THandle) : Except HErr THandle :=
  if h.closed then .ok h
  else
    match h.stopT with
    | .error e => .error e
    | .ok h1 => h1.closeT

/-- `timer_callback` built by `Hub.schedule_call_global`
(pyuv_cffi.py lines 128-137): invoke `cb(*args, **kwargs)`, squelching any
exception (`_squelch_exception` is modelled from the spec as log-and-return),
then `if not timer_h.closed: timer_h.stop(); timer_h.close()`.
`cbRaises` says whether the user callback raises. -/
def timerCallback (cbRaises : Bool) (h : THandle) : Except HErr (THandle × List TEv) :=
  let evs := if cbRaises then [TEv.invoke, TEv.squelch] else [TEv.invoke]
  if h.closed then .ok (h, evs)
  else
    match h.stopT with
    | .error e => .error e
    | .ok h1 =>
      match h1.closeT with
      | .error e => .error e
      | .ok h2 => .ok (h2, evs ++ [TEv.stop, TEv.close])

/-! ## Native poll handles and Listeners -/

/-- State of a native uv poll handle: `ref` says whether it keeps the loop
alive, `active` whether it is currently polling, `closed` whether it has
been closed. -/
structure UvHandle where
  ref : Bool
  active : Bool
  closed : Bool
deriving DecidableEq, Repr

/-- The native-handle operations performed by `Hub.remove`, recorded as a
trace so the teardown order can be stated. -/
inductive HOp where
  | unref    -- `listener.handle.ref = False`
  | stop     -- `listener.handle.stop()`
  | close    -- `listener.handle.close()`
  | nullify  -- `listener.handle = None`
deriving DecidableEq, Repr

/-- `handle.ref = False`: invalid on a closed handle. -/
def UvHandle.doUnref (h : UvHandle) : Except HErr (UvHandle × HOp) :=
  if h.closed then .error .closedHandle else .ok ({ h with ref := false }, .unref)

/-- `handle.stop()`: invalid on a closed handle. -/
def UvHandle.doStop (h : UvHandle) : Except HErr (UvHandle × HOp) :=
  if h.closed then .error .closedHandle else .ok ({ h with active := false }, .stop)

/-- `handle.close()`: invalid on a closed handle. -/
def UvHandle.doClose (h : UvHandle) : Except HErr (UvHandle × HOp) :=
  if h.closed then .error .closedHandle
  else .ok ({ h with active := false, closed := true }, .close)

/-- `UvFdListener` (pyuv_cffi.py lines 23-30): an (event-type, fd) pair plus
the owned native poll handle.  `id` stands for Python object identity
(membership in the Hub's listener set is identity-based); `handle = none`
models `listener.handle = None`. -/
structure Listener where
  id : Nat
  evtype : Nat
  fd : Nat
  handle : Option UvHandle
deriving DecidableEq, Repr

/-- An entry of `Hub.callbacks`: a `(cb, args, kwargs)` triple, with the
callback identified by a number and its arguments by a list of numbers. -/
structure CbEntry where
  cb : Nat
  args : List Nat
deriving DecidableEq, Repr

/-- The Hub state touched by the modelled operations (pyuv_cffi.py lines
46-67): the active listener set, the pending-callback queue, the
`running`/`stopping` flags, and the `ref` flag of the prepare handle.
`inRun` is a ghost flag of the trace semantics: it records that an
activation of `run()` has passed its guards and entered `self.loop.run`,
which lets "during an active run() call" be stated. -/
structure Hub where
  listeners : List Listener
  callbacks : List CbEntry
  running : Bool
  stopping : Bool
  prepareRef : Bool
  inRun : Bool
deriving DecidableEq, Repr

/-- The freshly constructed Hub (pyuv_cffi.py lines 47-67): no listeners, no
pending callbacks, not running, not stopping; `prepare_h` is started and
referencing. -/
def Hub.init : Hub :=
  { listeners := [], callbacks := [], running := false, stopping := false,
    prepareRef := true, inRun := false }

/-- Modelled from the spec: `AbstractHub._remove_listener` lives in
guv/hubs/abc.py, which is not among the source files.  The spec says of
`remove`: "Also removes the Listener from the Hub's active set." -/
def Hub._remove_listener (hub : Hub) (l : Listener) : Hub :=
  { hub with listeners := hub.listeners.filter (fun x => x.id ≠ l.id) }

/-- Modelled from the spec: `AbstractHub._add_listener` lives in
guv/hubs/abc.py, which is not among the source files.  The spec says of
`add`: it "stores a Listener in the Hub's active set". -/
def Hub._add_listener (hub : Hub) (l : Listener) : Hub :=
  { hub with listeners := hub.listeners ++ [l] }

/-- `Hub.remove` (pyuv_cffi.py lines 177-191): `_remove_listener`, then the
teardown sequence `handle.ref = False; handle.stop(); handle.close();
listener.handle = None`.  The Hub component of the result reflects the
mutations applied before any raise (in Python `_remove_listener` has
already mutated the set when a later handle operation raises); the `Except`
component carries the updated listener and the handle-operation trace, or
the exception. -/
def Hub.remove (hub : Hub) (l : Listener) :
    Hub × Except HErr (Listener × List HOp) :=
  let hub1 := hub._remove_listener l
  match l.handle with
  | none => (hub1, .error .noHandle)  -- `None.ref` raises AttributeError
  | some h =>
    match h.doUnref with
    | .error e => (hub1, .error e)
    | .ok (h1, o1) =>
      match h1.doStop with
      | .error e => (hub1, .error e)
      | .ok (h2, o2) =>
        match h2.doClose with
        | .error e => (hub1, .error e)
        | .ok (_h3, o3) =>
          (hub1, .ok ({ l with handle := none }, [o1, o2, o3, HOp.nullify]))

/-- `Hub.add` (pyuv_cffi.py lines 144-175): allocate a poll handle for `fd`,
wrap it in a `UvFdListener`, register the listener (`_add_listener` is
modelled from the spec, see `Hub._add_listener`), and start the handle.
`idNum` stands for the identity of the new listener object. -/
def Hub.add (hub : Hub) (evtype fd idNum : Nat) : Hub × Listener :=
  let poll_h : UvHandle := { ref := true, active := false, closed := false }
  let listener : Listener := { id := idNum, evtype := evtype, fd := fd, handle := some poll_h }
  let hub1 := hub._add_listener listener
  -- poll_h.start(evtype, poll_cb): the handle is now actively polling
  let started : Listener := { listener with handle := some { poll_h with active := true } }
  ({ hub1 with listeners := hub1.listeners.map (fun x => if x.id = idNum then started else x) },
   started)

/-- Trace events of the wrapped poll callback `poll_cb`. -/
inductive PEv where
  | invoke         -- `cb(*cb_args)` was invoked
  | squelch        -- `self._squelch_exception(sys.exc_info())` ran
  | removeAttempt  -- `self.remove(listener)` was called
  | stderrReport   -- `sys.stderr.write('Exception while removing listener: ...')`
deriving DecidableEq, Repr

/-- `poll_cb`, the closure built inside `Hub.add` (pyuv_cffi.py lines
148-166): invoke the user callback; on any exception, squelch it
(`_squelch_exception` is modelled from the spec as log-and-return), then
attempt `self.remove(listener)`; if removal raises an `Exception`, report it
on stderr and swallow it.  A raise that `except Exception` would not catch
would propagate as `.error`. -/
def Hub.poll_cb (hub : Hub) (l : Listener) (cbRaises : Bool) :
    Except HErr (Hub × List PEv) :=
  if cbRaises then
    let (hub1, r) := hub.remove l
    match r with
    | .ok _ => .ok (hub1, [.invoke, .squelch, .removeAttempt])
    | .error e =>
      if e.isException then .ok (hub1, [.invoke, .squelch, .removeAttempt, .stderrReport])
      else .error e
  else .ok (hub, [.invoke])

/-! ## Immediate callbacks and the per-iteration drain -/

/-- Behaviour of one pending callback when invoked: the entries it appends
to the live queue via `schedule_call_now`, and whether it then raises. -/
structure CbBehavior where
  schedules : List CbEntry
  raises : Bool

/-- Assignment of a behaviour to every callback entry. -/
abbrev CbEnv := CbEntry → CbBehavior

/-- `Hub.schedule_call_now` (pyuv_cffi.py lines 124-125): append the triple
to `self.callbacks`.  The second component of the result is the list of
callbacks invoked synchronously by the call — it is empty. -/
def Hub.schedule_call_now (hub : Hub) (cb : Nat) (args : List Nat) :
    Hub × List CbEntry :=
  ({ hub with callbacks := hub.callbacks ++ [{ cb := cb, args := args }] }, [])

/-- Trace events of one drain. -/
inductive DrainEv where
  | invoke (c : CbEntry)   -- `cb(*args, **kwargs)` was invoked
  | squelch (c : CbEntry)  -- its exception was squelched
deriving DecidableEq, Repr

/-- The entries actually invoked, read off a drain trace. -/
def invokedOf (evs : List DrainEv) : List CbEntry :=
  evs.filterMap fun e =>
    match e with
    | .invoke c => some c
    | .squelch _ => none

/-- The `for cb, args, kwargs in callbacks:` loop of `_fire_callbacks`
(pyuv_cffi.py lines 106-110), with the live queue threaded through:
invoking an entry appends what it schedules to the live queue, and a raise
is squelched so iteration continues. -/
def runBatch (env : CbEnv) : List CbEntry → List CbEntry → List DrainEv × List CbEntry
  | [], queue => ([], queue)
  | c :: rest, queue =>
    let b := env c
    let evs := if b.raises then [DrainEv.invoke c, DrainEv.squelch c] else [DrainEv.invoke c]
    let r := runBatch env rest (queue ++ b.schedules)
    (evs ++ r.1, r.2)

/-- Result of one drain, beyond the new Hub state: the trace, and whether
`idle_h.start` was called. -/
structure DrainOut where
  events : List DrainEv
  idleStartCalled : Bool
deriving Repr

/-- `Hub._fire_callbacks` (pyuv_cffi.py lines 98-121): swap the pending
queue for an empty one, run the swapped-out batch, then
`if self.callbacks: self.idle_h.start(...)` and
`prepare_h.ref = bool(self.callbacks)`. -/
def Hub.fire_callbacks (hub : Hub) (env : CbEnv) : Hub × DrainOut :=
  let batch := hub.callbacks
  -- `callbacks = self.callbacks; self.callbacks = []`
  let r := runBatch env batch []
  ({ hub with callbacks := r.2, prepareRef := !r.2.isEmpty },
   { events := r.1, idleStartCalled := !r.2.isEmpty })

/-! ## run / abort -/

/-- The events of the run/abort trace semantics.  `runEnter` is a call of
`Hub.run` (pyuv_cffi.py lines 72-85) up to and including entering
`self.loop.run`; `runExit raised` is the `finally` block (lines 86-88)
running because `self.loop.run` returned (`raised = false`) or raised
(`raised = true`); `abort` is `Hub.abort` (lines 90-96). -/
inductive HubEv where
  | runEnter
  | runExit (raised : Bool)
  | abort
deriving DecidableEq, Repr

/-- What a step of the trace semantics did. -/
inductive RunOutcome where
  | enteredEngine       -- run() passed both guards and called `self.loop.run`
  | returnedEarly       -- run(): `if self.stopping: return`
  | raisedRuntimeError  -- run(): `raise RuntimeError("The hub's runloop is already running")`
  | exited              -- the `finally` block reset the flags
  | loopStopRequested   -- abort(): `self.loop.stop()`
  | noEffect            -- runExit with no active run (not a program path)
deriving DecidableEq, Repr

/-- One step of the run/abort trace semantics, following pyuv_cffi.py lines
72-96.  `run()` checks `stopping` before `running`; the `finally` block
resets both flags whether the engine returned or raised; `abort()` sets
`stopping` only when `running`. -/
def Hub.step (hub : Hub) : HubEv → Hub × RunOutcome
  | .runEnter =>
    if hub.stopping then (hub, .returnedEarly)
    else if hub.running then (hub, .raisedRuntimeError)
    else ({ hub with running := true, stopping := false, inRun := true }, .enteredEngine)
  | .runExit _raised =>
    if hub.inRun then
      ({ hub with running := false, stopping := false, inRun := false }, .exited)
    else (hub, .noEffect)
  | .abort =>
    ((if hub.running then { hub with stopping := true } else hub), .loopStopRequested)

/-- The Hub state reached from a fresh Hub by a sequence of events. -/
def Hub.reach (evs : List HubEv) : Hub :=
  evs.foldl (fun s e => (s.step e).1) Hub.init

end Guv

namespace Eventlet

/-- One iteration's outcome of `self.server_sock.accept()` (plus `_spawn`)
inside the accept loop: a connection was accepted, `StopServe` was raised,
or some other exception (identified by a code) was raised. -/
inductive AcceptStep where
  | conn (sock addr : Nat)
  | stopServe
  | err (e : Nat)
deriving DecidableEq, Repr

/-- Observable events of the server harness. -/
inductive ServerEv where
  | logStarted              -- log.debug('{0} started on {0.address}')
  | spawned (sock addr : Nat)  -- self._spawn(client_sock, addr)
  | logStopped              -- log.debug('{0} stopped')
  | logError                -- log.log(level, '{0}: {1} --> closing', ...) in handle_error
deriving DecidableEq, Repr

/-- How `start()` ended. -/
inductive StartOutcome where
  | returned        -- start() returned normally (StopServe caught)
  | raised (e : Nat)  -- an exception propagated out of start()
  | stillRunning    -- the script ran out while the loop was still going
deriving DecidableEq, Repr

/-- Result of running `ServerLoop.start` against a script of accept
outcomes: the events it produced, whether `self.stop()` was called, and how
it ended. -/
structure StartResult where
  events : List ServerEv
  stopCalled : Bool
  outcome : StartOutcome
deriving DecidableEq, Repr

/-- `AbstractServer.handle_error` (server.py lines 92-94): log the message
at ERROR level together with `self` and call `self.stop()`.  Defined by the
source but not invoked anywhere in `ServerLoop.start`. -/
def handle_error : List ServerEv × Bool := ([ServerEv.logError], true)

/-- The `while True:` accept loop of `ServerLoop.start` (server.py lines
119-125): on a connection, `_spawn` and continue; on `StopServe`, log and
return; any other exception propagates (only `StopServe` is caught). -/
def acceptLoop : List AcceptStep → StartResult
  | [] => { events := [], stopCalled := false, outcome := .stillRunning }
  | .conn s a :: rest =>
    let r := acceptLoop rest
    { r with events := .spawned s a :: r.events }
  | .stopServe :: _ =>
    { events := [.logStopped], stopCalled := false, outcome := .returned }
  | .err e :: _ =>
    { events := [], stopCalled := false, outcome := .raised e }

/-- `ServerLoop.start` (server.py lines 117-125): the startup debug log,
then the accept loop. -/
def start (script : List AcceptStep) : StartResult :=
  let r := acceptLoop script
  { r with events := .logStarted :: r.events }

end Eventlet

namespace Guv

/-- Helper: the wrapped timer callback always returns normally, and the
handle it leaves behind is closed. -/
theorem timerCallback_closes (cbRaises : Bool) (h : THandle) :
    ∃ h' evs, timerCallback cbRaises h = .ok (h', evs) ∧ h'.closed = true := by
  cases cbRaises <;> cases h with
  | mk active closed =>
    cases closed <;>
      simp [timerCallback, THandle.stopT, THandle.closeT]

/-- C4: For every timer created by `Hub.schedule_call_global`, when the timer
fires its wrapped callback invokes `cb(*args)`, squelches any exception `cb`
raises, and then stops and closes the native timer handle if it is not
already closed — the handle cleanup happens on every fire, including when
`cb` raised. -/
theorem schedule_call_global_fire_cleanup (cbRaises : Bool) (h : THandle) :
    ∃ h' evs, timerCallback cbRaises h = .ok (h', evs) ∧
      h'.closed = true ∧
      evs.head? = some TEv.invoke ∧
      (TEv.squelch ∈ evs ↔ cbRaises = true) ∧
      (h.closed = false →
        evs = (if cbRaises then [TEv.invoke, TEv.squelch] else [TEv.invoke])
          ++ [TEv.stop, TEv.close]) ∧
      (h.closed = true → h' = h ∧ TEv.stop ∉ evs ∧ TEv.close ∉ evs) := by
  cases cbRaises <;> cases h with
  | mk active closed =>
    cases closed <;>
      simp [timerCallback, THandle.stopT, THandle.closeT] <;>
      exact ⟨_, _, ⟨rfl, rfl⟩, by simp⟩

/-- Witness for C4: a concrete fire on an open handle with a raising
callback still stops and closes the handle. -/
theorem schedule_call_global_fire_cleanup_witness :
    ∃ h' evs,
      timerCallback true ⟨true, false⟩ = .ok (h', evs) ∧
      h'.closed = true ∧
      evs.head? = some TEv.invoke ∧
      (TEv.squelch ∈ evs ↔ true = true) ∧
      ((false : Bool) = false →
        evs = (if true then [TEv.invoke, TEv.squelch] else [TEv.invoke])
          ++ [TEv.stop, TEv.close]) ∧
      ((false : Bool) = true → h' = ⟨true, false⟩ ∧ TEv.stop ∉ evs ∧ TEv.close ∉ evs) :=
  schedule_call_global_fire_cleanup true ⟨true, false⟩

/-- C7: For every Timer returned by `Hub.schedule_call_global`, `cancel()`
stops and closes the native handle if it is still open; calling `cancel()`
when the handle is already closed — whether because the timer already fired
or because `cancel()` was called before — is a no-op that does not raise,
and `cancel(); cancel()` has the same effect as a single `cancel()`. -/
theorem timer_cancel_idempotent (h : THandle) :
    (∃ h', Timer.cancel h = .ok h' ∧ h'.closed = true ∧
      Timer.cancel h' = .ok h') ∧
    (h.closed = false → Timer.cancel h = .ok ⟨false, true⟩) ∧
    (h.closed = true → Timer.cancel h = .ok h) ∧
    (∀ r hf evs, timerCallback r h = .ok (hf, evs) → Timer.cancel hf = .ok hf) := by
  refine ⟨?_, ?_, ?_, ?_⟩
  · cases h with
    | mk active closed =>
      cases closed
      · exact ⟨⟨false, true⟩, by simp [Timer.cancel, THandle.stopT, THandle.closeT], rfl,
          by simp [Timer.cancel]⟩
      · exact ⟨⟨active, true⟩, by simp [Timer.cancel], rfl, by simp [Timer.cancel]⟩
  · intro hc
    simp [Timer.cancel, THandle.stopT, THandle.closeT, hc]
  · intro hc
    simp [Timer.cancel, hc]
  · intro r hf evs hfire
    obtain ⟨h', evs', heq, hclosed⟩ := timerCallback_closes r h
    rw [hfire] at heq
    obtain ⟨h1, h2⟩ : hf = h' ∧ evs = evs' := by simpa using heq
    subst h1
    simp [Timer.cancel, hclosed]

/-- Witness for C7: cancelling an armed timer closes it, and a second
cancel on the already-cancelled handle is an accepted no-op. -/
theorem timer_cancel_idempotent_witness :
    Timer.cancel ⟨true, false⟩ = .ok ⟨false, true⟩ ∧
    Timer.cancel ⟨false, true⟩ = .ok ⟨false, true⟩ :=
  ⟨(timer_cancel_idempotent ⟨true, false⟩).2.1 rfl,
   (timer_cancel_idempotent ⟨false, true⟩).2.2.1 rfl⟩

/-- C1: For every listener currently registered on the Hub,
`Hub.remove(listener)` performs the teardown steps on the native handle in
exactly this order: (1) mark the handle non-referencing, (2) stop polling,
(3) close the handle, (4) set the listener's handle reference to `None`;
and it also removes the listener from the Hub's active set. -/
theorem remove_teardown_order (hub : Hub) (l : Listener) (h : UvHandle)
    (_hmem : l ∈ hub.listeners) (hh : l.handle = some h) (hc : h.closed = false) :
    hub.remove l =
      ({ hub with listeners := hub.listeners.filter (fun x => x.id ≠ l.id) },
        .ok ({ l with handle := none },
          [HOp.unref, HOp.stop, HOp.close, HOp.nullify])) ∧
    ∀ x ∈ (hub.remove l).1.listeners, x.id ≠ l.id := by
  have hmain : hub.remove l =
      ({ hub with listeners := hub.listeners.filter (fun x => x.id ≠ l.id) },
        .ok ({ l with handle := none },
          [HOp.unref, HOp.stop, HOp.close, HOp.nullify])) := by
    simp [Hub.remove, Hub._remove_listener, hh,
      UvHandle.doUnref, UvHandle.doStop, UvHandle.doClose, hc]
  refine ⟨hmain, ?_⟩
  rw [hmain]
  intro x hx
  simpa using (List.mem_filter.mp hx).2

/-- Witness for C1: removing a concretely registered listener with an open
handle yields the four teardown operations in order and empties the set. -/
theorem remove_teardown_order_witness :
    ({ listeners := [⟨0, 1, 3, some ⟨true, true, false⟩⟩], callbacks := [],
       running := false, stopping := false, prepareRef := true,
       inRun := false } : Hub).remove ⟨0, 1, 3, some ⟨true, true, false⟩⟩ =
      ({ listeners := [], callbacks := [], running := false, stopping := false,
         prepareRef := true, inRun := false },
        .ok (⟨0, 1, 3, none⟩, [HOp.unref, HOp.stop, HOp.close, HOp.nullify])) := by
  have := remove_teardown_order
    { listeners := [⟨0, 1, 3, some ⟨true, true, false⟩⟩], callbacks := [],
      running := false, stopping := false, prepareRef := true, inRun := false }
    ⟨0, 1, 3, some ⟨true, true, false⟩⟩ ⟨true, true, false⟩
    (by simp) rfl rfl
  simpa using this.1

/-- Helper: every modelled handle error models a Python `Exception`
subclass, so the `except Exception` clause in `poll_cb` catches it. -/
theorem HErr.isException_eq_true (e : HErr) : e.isException = true := by
  cases e <;> rfl

/-- C5: For every listener created by `Hub.add`, whenever the user callback
raises inside the wrapped native poll callback, the exception is routed to
the squelch handler and never propagates into the native engine; `remove()`
is then attempted on that listener, and if `remove()` itself raises, that
secondary exception is written to the diagnostic stream and swallowed, so
the wrapped callback never lets any exception escape.  (Stated for an
arbitrary Hub state and listener, which covers every listener `Hub.add`
creates: `Hub.poll_cb` is the closure `poll_cb` that `Hub.add` installs.) -/
theorem poll_cb_never_escapes (hub : Hub) (l : Listener) (cbRaises : Bool) :
    ∃ hub1 evs, hub.poll_cb l cbRaises = .ok (hub1, evs) ∧
      (cbRaises = true →
        evs.take 3 = [PEv.invoke, PEv.squelch, PEv.removeAttempt] ∧
        ((hub.remove l).2.isOk = false ↔ PEv.stderrReport ∈ evs) ∧
        hub1 = (hub.remove l).1) ∧
      (cbRaises = false → hub1 = hub ∧ evs = [PEv.invoke]) := by
  cases cbRaises
  · exact ⟨hub, [PEv.invoke], rfl, by simp, by simp⟩
  · rcases hr : (hub.remove l).2 with e | v
    · refine ⟨(hub.remove l).1, [.invoke, .squelch, .removeAttempt, .stderrReport],
        ?_, ?_, by simp⟩
      · simp [Hub.poll_cb, hr, HErr.isException_eq_true]
      · intro _
        simp [hr, Except.isOk, Except.toBool]
    · refine ⟨(hub.remove l).1, [.invoke, .squelch, .removeAttempt], ?_, ?_, by simp⟩
      · simp [Hub.poll_cb, hr]
      · intro _
        simp [hr, Except.isOk, Except.toBool]

/-- Witness for C5: a raising user callback on a listener whose removal
itself fails (its handle is already gone) still produces a normal return,
with squelch, a removal attempt, and the stderr report in the trace. -/
theorem poll_cb_never_escapes_witness :
    ∃ hub1 evs,
      ({ listeners := [⟨0, 1, 3, none⟩], callbacks := [], running := false,
         stopping := false, prepareRef := true, inRun := false } : Hub).poll_cb
          ⟨0, 1, 3, none⟩ true = .ok (hub1, evs) ∧
      evs.take 3 = [PEv.invoke, PEv.squelch, PEv.removeAttempt] ∧
      PEv.stderrReport ∈ evs := by
  obtain ⟨hub1, evs, heq, htrue, -⟩ := poll_cb_never_escapes
    { listeners := [⟨0, 1, 3, none⟩], callbacks := [], running := false,
      stopping := false, prepareRef := true, inRun := false }
    ⟨0, 1, 3, none⟩ true
  obtain ⟨h3, hio, -⟩ := htrue rfl
  exact ⟨hub1, evs, heq, h3, hio.mp (by decide)⟩

/-- Helper: `invokedOf` distributes over trace concatenation. -/
theorem invokedOf_append (a b : List DrainEv) :
    invokedOf (a ++ b) = invokedOf a ++ invokedOf b := by
  simp [invokedOf]

/-- Helper: the loop of `_fire_callbacks` invokes exactly the batch it was
given, in order, and leaves the live queue equal to what it started with
plus everything the invoked callbacks scheduled, in order. -/
theorem runBatch_spec (env : CbEnv) :
    ∀ (batch queue : List CbEntry),
      invokedOf (runBatch env batch queue).1 = batch ∧
      (runBatch env batch queue).2 =
        queue ++ batch.flatMap (fun c => (env c).schedules) := by
  intro batch
  induction batch with
  | nil => intro queue; simp [runBatch, invokedOf]
  | cons c rest ih =>
    intro queue
    obtain ⟨ih1, ih2⟩ := ih (queue ++ (env c).schedules)
    have hfst : (runBatch env (c :: rest) queue).1 =
        (if (env c).raises then [DrainEv.invoke c, DrainEv.squelch c]
          else [DrainEv.invoke c])
          ++ (runBatch env rest (queue ++ (env c).schedules)).1 := rfl
    have hsnd : (runBatch env (c :: rest) queue).2 =
        (runBatch env rest (queue ++ (env c).schedules)).2 := rfl
    constructor
    · rw [hfst, invokedOf_append, ih1]
      by_cases hr : (env c).raises <;> simp [hr, invokedOf]
    · rw [hsnd, ih2]
      simp

/-- C3: For every drain, exactly the callbacks that were in the pending
queue at drain entry are invoked, in FIFO insertion order; any callback
appended to the queue during that drain (including by a running callback)
is not invoked in the same drain and remains queued for the next
iteration. -/
theorem fire_callbacks_fifo_and_defer (hub : Hub) (env : CbEnv) :
    invokedOf (hub.fire_callbacks env).2.events = hub.callbacks ∧
    (hub.fire_callbacks env).1.callbacks =
      hub.callbacks.flatMap (fun c => (env c).schedules) := by
  obtain ⟨h1, h2⟩ := runBatch_spec env hub.callbacks []
  exact ⟨h1, by simpa using h2⟩

/-- C6: After every drain, the prepare handle is referencing if and only if
the pending-callback queue is non-empty, and the zero-timeout idle handle
is started exactly when new callbacks were scheduled during the drain. -/
theorem fire_callbacks_ref_and_idle (hub : Hub) (env : CbEnv) :
    ((hub.fire_callbacks env).1.prepareRef = true ↔
      (hub.fire_callbacks env).1.callbacks ≠ []) ∧
    ((hub.fire_callbacks env).2.idleStartCalled = true ↔
      hub.callbacks.flatMap (fun c => (env c).schedules) ≠ []) := by
  obtain ⟨-, h2⟩ := runBatch_spec env hub.callbacks []
  constructor
  · simp [Hub.fire_callbacks]
  · simp [Hub.fire_callbacks, h2]

/-- C9: `schedule_call_now(cb, args)` only appends `(cb, args)` to the end
of the pending-callback queue and returns; it never invokes `cb`
synchronously (the list of synchronously invoked callbacks is empty), and
it leaves all other Hub state (listeners, running, stopping) unchanged. -/
theorem schedule_call_now_appends_only (hub : Hub) (cb : Nat) (args : List Nat) :
    hub.schedule_call_now cb args =
      ({ hub with callbacks := hub.callbacks ++ [{ cb := cb, args := args }] }, []) ∧
    (hub.schedule_call_now cb args).1.listeners = hub.listeners ∧
    (hub.schedule_call_now cb args).1.running = hub.running ∧
    (hub.schedule_call_now cb args).1.stopping = hub.stopping ∧
    (hub.schedule_call_now cb args).2 = [] :=
  ⟨rfl, rfl, rfl, rfl, rfl⟩

/-- Helper: one step of the run/abort semantics preserves the flag
discipline `stopping → running` and `running → inRun`. -/
theorem step_preserves_flags (hub : Hub) (e : HubEv)
    (h1 : hub.stopping = true → hub.running = true)
    (h2 : hub.running = true → hub.inRun = true) :
    ((hub.step e).1.stopping = true → (hub.step e).1.running = true) ∧
    ((hub.step e).1.running = true → (hub.step e).1.inRun = true) := by
  cases e with
  | runEnter =>
    by_cases hs : hub.stopping = true
    · simp [Hub.step, hs, h1 hs, h2 (h1 hs)]
    · by_cases hr : hub.running = true <;>
        simp_all [Hub.step]
  | runExit raised =>
    by_cases hin : hub.inRun = true <;> simp_all [Hub.step]
  | abort =>
    by_cases hr : hub.running = true <;> simp_all [Hub.step]

/-- Helper: the flag discipline is an inductive invariant of any event
trace. -/
theorem foldl_step_flags :
    ∀ (evs : List HubEv) (s : Hub),
      (s.stopping = true → s.running = true) →
      (s.running = true → s.inRun = true) →
      ((evs.foldl (fun t e => (t.step e).1) s).stopping = true →
        (evs.foldl (fun t e => (t.step e).1) s).running = true) ∧
      ((evs.foldl (fun t e => (t.step e).1) s).running = true →
        (evs.foldl (fun t e => (t.step e).1) s).inRun = true)
  | [], _, h1, h2 => ⟨h1, h2⟩
  | e :: rest, s, h1, h2 => by
    obtain ⟨g1, g2⟩ := step_preserves_flags s e h1 h2
    simpa [List.foldl] using foldl_step_flags rest (s.step e).1 g1 g2

/-- C8: The Hub state invariant holds across all operations: `running` is
true only during an active `run()` call (`running → inRun`) and `stopping`
is true only while `running` is true; and `run()` resets both flags to
false on every exit path out of the engine, whether the native engine's run
call returns normally (`raised = false`) or raises (`raised = true`). -/
theorem run_state_invariant (evs : List HubEv) :
    ((Hub.reach evs).stopping = true → (Hub.reach evs).running = true) ∧
    ((Hub.reach evs).running = true → (Hub.reach evs).inRun = true) ∧
    (∀ (hub : Hub) (raised : Bool), hub.inRun = true →
      (hub.step (HubEv.runExit raised)).1 =
        { hub with running := false, stopping := false, inRun := false }) := by
  obtain ⟨a, b⟩ := foldl_step_flags evs Hub.init
    (by simp [Hub.init]) (by simp [Hub.init])
  refine ⟨a, b, ?_⟩
  intro hub raised hin
  simp [Hub.step, hin]

/-- Witness for C8: a concrete exit (with the engine raising) from a
running, stopping Hub resets both flags. -/
theorem run_state_invariant_witness :
    (({ listeners := [], callbacks := [], running := true, stopping := true,
        prepareRef := true, inRun := true } : Hub).step (HubEv.runExit true)).1 =
      { listeners := [], callbacks := [], running := false, stopping := false,
        prepareRef := true, inRun := false } :=
  (run_state_invariant []).2.2
    { listeners := [], callbacks := [], running := true, stopping := true,
      prepareRef := true, inRun := true } true rfl

/-- Counterexample to C10 as stated: the state with `running = true` and
`stopping = true` is reachable (enter `run()`, then `abort()`), and a
`run()` call in that state returns early instead of raising `RuntimeError`,
because `run()` checks `stopping` before `running`. -/
theorem run_reentry_counterexample :
    (Hub.reach [HubEv.runEnter, HubEv.abort]).running = true ∧
    (Hub.reach [HubEv.runEnter, HubEv.abort]).stopping = true ∧
    ((Hub.reach [HubEv.runEnter, HubEv.abort]).step HubEv.runEnter).2 =
      RunOutcome.returnedEarly ∧
    ((Hub.reach [HubEv.runEnter, HubEv.abort]).step HubEv.runEnter).2 ≠
      RunOutcome.raisedRuntimeError := by
  decide

/-- C10 as amended: if `run()` is called while `running` is true and
`stopping` is false, it raises `RuntimeError` without entering the native
engine and without modifying any Hub state; and if `stopping` is true at
entry, `run()` returns immediately without entering the native engine and
without modifying any Hub state. -/
theorem run_guards (hub : Hub) :
    (hub.stopping = false → hub.running = true →
      hub.step HubEv.runEnter = (hub, RunOutcome.raisedRuntimeError)) ∧
    (hub.stopping = true →
      hub.step HubEv.runEnter = (hub, RunOutcome.returnedEarly)) := by
  constructor
  · intro hs hr; simp [Hub.step, hs, hr]
  · intro hs; simp [Hub.step, hs]

/-- Witness for the amended C10: both guard paths at concrete states. -/
theorem run_guards_witness :
    ({ Hub.init with running := true } : Hub).step HubEv.runEnter =
      ({ Hub.init with running := true }, RunOutcome.raisedRuntimeError) ∧
    ({ Hub.init with stopping := true } : Hub).step HubEv.runEnter =
      ({ Hub.init with stopping := true }, RunOutcome.returnedEarly) :=
  ⟨(run_guards { Hub.init with running := true }).1 rfl rfl,
   (run_guards { Hub.init with stopping := true }).2 rfl⟩

end Guv

namespace Eventlet

/-- Counterexample to C2 as stated: an exception other than `StopServe`
reaching the accept loop propagates out of `start()`; it is not logged as
an error and `stop()` is not called. -/
theorem start_fatal_error_counterexample :
    start [AcceptStep.err 7] =
      { events := [ServerEv.logStarted], stopCalled := false,
        outcome := StartOutcome.raised 7 } ∧
    ServerEv.logError ∉ (start [AcceptStep.err 7]).events ∧
    (start [AcceptStep.err 7]).stopCalled = false := by
  decide

/-- Helper: the accept loop propagates the first non-`StopServe` exception
after any number of successful accepts, calling neither `handle_error` nor
`stop()`. -/
theorem acceptLoop_err (e : Nat) (rest : List AcceptStep) :
    ∀ (pre : List AcceptStep),
      (∀ s ∈ pre, ∃ sock addr, s = AcceptStep.conn sock addr) →
      (acceptLoop (pre ++ AcceptStep.err e :: rest)).outcome = StartOutcome.raised e ∧
      (acceptLoop (pre ++ AcceptStep.err e :: rest)).stopCalled = false ∧
      ServerEv.logError ∉ (acceptLoop (pre ++ AcceptStep.err e :: rest)).events
  | [], _ => by simp [acceptLoop]
  | s :: tail, hpre => by
    obtain ⟨sock, addr, rfl⟩ := hpre s (by simp)
    obtain ⟨o1, o2, o3⟩ := acceptLoop_err e rest tail (fun x hx => hpre x (by simp [hx]))
    simpa [acceptLoop] using ⟨o1, o2, o3⟩

/-- C2 as amended: every exception other than `StopServe` that reaches the
accept loop of `start()` propagates to `start()`'s caller; `start()` does
not log it and does not call `stop()` (the `handle_error` helper that would
do both exists on `AbstractServer` but is never invoked by
`ServerLoop.start`). -/
theorem start_propagates_other_exceptions (pre : List AcceptStep) (e : Nat)
    (rest : List AcceptStep)
    (hpre : ∀ s ∈ pre, ∃ sock addr, s = AcceptStep.conn sock addr) :
    (start (pre ++ AcceptStep.err e :: rest)).outcome = StartOutcome.raised e ∧
    (start (pre ++ AcceptStep.err e :: rest)).stopCalled = false ∧
    ServerEv.logError ∉ (start (pre ++ AcceptStep.err e :: rest)).events := by
  obtain ⟨o1, o2, o3⟩ := acceptLoop_err e rest pre hpre
  exact ⟨o1, o2, by simpa [start] using o3⟩

/-- Witness for the amended C2: one accepted connection, then a fatal
exception; it propagates, with no error log and no `stop()`. -/
theorem start_propagates_other_exceptions_witness :
    (start ([AcceptStep.conn 5 6] ++ AcceptStep.err 7 :: [])).outcome =
      StartOutcome.raised 7 ∧
    (start ([AcceptStep.conn 5 6] ++ AcceptStep.err 7 :: [])).stopCalled = false ∧
    ServerEv.logError ∉ (start ([AcceptStep.conn 5 6] ++ AcceptStep.err 7 :: [])).events :=
  start_propagates_other_exceptions [AcceptStep.conn 5 6] 7 []
    (by
      rintro s hs
      rw [List.mem_singleton] at hs
      exact ⟨5, 6, hs⟩)

end Eventlet
